import Mathlib

/-!
Verification development for the monitor_ai_agent session-analysis core.

The definitions below are a shallow embedding of the TypeScript source:
the prompt analyzer and workflow analyzer (`src/service.ts`) and the
task-type inferrer.  JavaScript strings are modelled as Lean strings
(lists of characters), JavaScript regular-expression `.test` calls are
modelled as match-existence of the corresponding pattern (for a boolean
test, greedy vs lazy quantifiers are irrelevant), JS numbers are modelled
as naturals / rationals with `Math.round x = Int.floor (x + 1/2)`, and
case-insensitive matching is modelled by ASCII lower-casing of both the
text and the (lower-case) literals.
-/

namespace Monitor

/-- JS `\w` word-character class: ASCII letters, digits and underscore. -/
def isWordChar (c : Char) : Bool :=
  (c ≥ 'a' && c ≤ 'z') || (c ≥ 'A' && c ≤ 'Z') || (c ≥ '0' && c ≤ '9') || c == '_'

/-- ASCII lower-casing of a character, modelling JS `toLowerCase` /
the `i` regex flag on the ASCII range. -/
def lowerChar (c : Char) : Char := c.toLower

/-- Lower-case a list of characters. -/
def lowerL (l : List Char) : List Char := l.map lowerChar

/-- JS `Math.round`: round half towards positive infinity. -/
def jsRound (q : ℚ) : ℤ := Int.floor (q + 1/2)

/-- The `pct` helper of the prompt analyzer:
`Math.round ((arr.filter predicate).length / arr.length * 100)`,
and `0` for an empty array. -/
def pct {α : Type} (arr : List α) (predicate : α → Bool) : ℤ :=
  if arr.length = 0 then 0
  else jsRound ((((arr.filter predicate).length : ℚ) / (arr.length : ℚ)) * 100)

/-- The `avg` helper of the prompt analyzer: mean rounded to one decimal
(`Math.round (m * 10) / 10`), and `0` for an empty array. -/
def avgJs (nums : List ℕ) : ℚ :=
  if nums.length = 0 then 0
  else (jsRound (((nums.sum : ℚ) / (nums.length : ℚ)) * 10) : ℚ) / 10

/-- Does `p` occur literally at the head of `t`? -/
def startsWithL : List Char → List Char → Bool
  | [], _ => true
  | _ :: _, [] => false
  | p :: ps, t :: ts => p == t && startsWithL ps ts

/-- Literal substring search. -/
def containsSub (p : List Char) : List Char → Bool
  | [] => startsWithL p []
  | t :: ts => startsWithL p (t :: ts) || containsSub p ts

/-- Case-insensitive alternation of literal substrings, modelling a JS
`/lit1|lit2|.../i.test(text)` where every alternative is a literal. -/
def containsAnyCI (lits : List (List Char)) (text : List Char) : Bool :=
  lits.any (fun l => containsSub (lowerL l) (lowerL text))

end Monitor

namespace Monitor

/-- Regular expressions over characters, used to model the JS regex
literals of the source.  `cls` is a character class given by a predicate. -/
inductive RE where
  | emp : RE
  | eps : RE
  | cls : (Char → Bool) → RE
  | seq : RE → RE → RE
  | alt : RE → RE → RE
  | star : RE → RE

/-- Does the regular expression accept the empty string? -/
def RE.nullable : RE → Bool
  | .emp => false
  | .eps => true
  | .cls _ => false
  | .seq a b => a.nullable && b.nullable
  | .alt a b => a.nullable || b.nullable
  | .star _ => true

/-- Brzozowski derivative. -/
def RE.deriv : RE → Char → RE
  | .emp, _ => .emp
  | .eps, _ => .emp
  | .cls p, c => if p c then .eps else .emp
  | .seq a b, c =>
      if a.nullable then .alt (.seq (a.deriv c) b) (b.deriv c)
      else .seq (a.deriv c) b
  | .alt a b, c => .alt (a.deriv c) (b.deriv c)
  | .star a, c => .seq (a.deriv c) (.star a)

/-- Does some (possibly empty) leading segment of the text match `r`?
This models an anchored regex test at the current position. -/
def rePref (r : RE) : List Char → Bool
  | [] => r.nullable
  | c :: cs => r.nullable || rePref (r.deriv c) cs

/-- Unanchored test: does `r` match somewhere in the text?  This is the
model of JS `regex.test(text)` for a pattern without anchors. -/
def reTest (r : RE) : List Char → Bool
  | [] => rePref r []
  | c :: cs => rePref r (c :: cs) || reTest r cs

/-- Variant of `rePref` requiring a trailing `\b` word boundary after the
match, for patterns whose final character is a `\w` character: the match
must be followed by a non-word character or the end of the text. -/
def rePrefWB (r : RE) : List Char → Bool
  | [] => r.nullable
  | c :: cs => (r.nullable && !isWordChar c) || rePrefWB (r.deriv c) cs

/-- Unanchored test with a trailing word boundary. -/
def reTestWB (r : RE) : List Char → Bool
  | [] => rePrefWB r []
  | c :: cs => rePrefWB r (c :: cs) || reTestWB r cs

/-- Single-character regex. -/
def chrRE (c : Char) : RE := .cls (fun d => d == c)

/-- Literal word as a regex. -/
def litRE (l : List Char) : RE := l.foldr (fun c r => .seq (chrRE c) r) .eps

/-- One or more repetitions. -/
def plusRE (r : RE) : RE := .seq r (.star r)

/-- Zero or one repetition. -/
def optRE (r : RE) : RE := .alt r .eps

/-- JS `[\s\S]` : any character. -/
def anyRE : RE := .cls (fun _ => true)

/-- JS `.` without the `s` flag: any character except a line terminator. -/
def dotRE : RE := .cls (fun c => c != '\n' && c != '\r')

/-- JS `\s` whitespace class (ASCII model). -/
def wsRE : RE := .cls Char.isWhitespace

/-- JS `\w` class as a regex. -/
def wordRE : RE := .cls isWordChar

/-- Suffixes of the text that start right after a `'\n'` character. -/
def lineSuffixes : List Char → List (List Char)
  | [] => []
  | c :: rest => (if c == '\n' then [rest] else []) ++ lineSuffixes rest

/-- Suffixes of the text at every line start (position `0` and every
position following a `'\n'`), modelling where a multiline `^` matches. -/
def lineStartSuffixes (s : List Char) : List (List Char) := s :: lineSuffixes s

/-- Multiline anchored test: does `r` match at some line start?  This is
the model of `/^.../m.test(text)`. -/
def reTestLineStart (r : RE) (s : List Char) : Bool :=
  (lineStartSuffixes s).any (fun t => rePref r t)

end Monitor

namespace Monitor

/-- The backtick character (written by code to keep it out of source text). -/
def btick : Char := Char.ofNat 96

/-- Model of `/^[\s]*[-*•]\s|^\d+\.\s|^#{1,3}\s/m`: markdown bullets,
numbered lists or up to three heading marks at a line start. -/
def hasStructure (text : String) : Bool :=
  reTestLineStart
    (.alt (.seq (.star wsRE) (.seq (.cls (fun c => c == '-' || c == '*' || c == '•')) wsRE))
      (.alt (.seq (plusRE (.cls Char.isDigit)) (.seq (chrRE '.') wsRE))
        (.seq (chrRE '#') (.seq (optRE (chrRE '#')) (.seq (optRE (chrRE '#')) wsRE)))))
    text.toList

/-- Model of ``/```[\s\S]*?```|^ {4}\S/m``: a fenced code block anywhere,
or a line starting with four spaces and a non-space character. -/
def hasCodeBlocks (text : String) : Bool :=
  reTest (.seq (litRE "```".toList) (.seq (.star anyRE) (litRE "```".toList))) text.toList ||
  reTestLineStart (.seq (litRE "    ".toList) (.cls (fun c => !c.isWhitespace))) text.toList

/-- Model of `/ejemplo:|por ejemplo|e\.g\.|for example|like this:|such as:/i`. -/
def hasExamples (text : String) : Bool :=
  containsAnyCI
    ["ejemplo:".toList, "por ejemplo".toList, "e.g.".toList, "for example".toList,
     "like this:".toList, "such as:".toList] text.toList

/-- Model of `` /\*\*\w|\*\w|__\w|`\w.*`|\[.*\]\(/ ``. -/
def hasFormatting (text : String) : Bool :=
  reTest
    (.alt (.seq (litRE "**".toList) wordRE)
      (.alt (.seq (chrRE '*') wordRE)
        (.alt (.seq (litRE "__".toList) wordRE)
          (.alt (.seq (chrRE btick) (.seq wordRE (.seq (.star dotRE) (chrRE btick))))
            (.seq (chrRE '[') (.seq (.star dotRE) (litRE "](".toList)))))))
    text.toList

/-- Character class `[\w.-]` used inside file-path patterns. -/
def fileCls : RE := .cls (fun c => isWordChar c || c == '.' || c == '-')

/-- Regex `\w{1,5}`: one to five word characters. -/
def w15RE : RE :=
  .seq wordRE (.seq (optRE wordRE) (.seq (optRE wordRE) (.seq (optRE wordRE) (optRE wordRE))))

/-- Model of `/[\/\\][\w.-]+\.\w{1,5}\b/`: a path-like token ending in a
short extension (the pattern ends in `\w`, so `\b` is a trailing
word-to-non-word boundary). -/
def hasFileReferences (text : String) : Bool :=
  reTestWB
    (.seq (.cls (fun c => c == '/' || c == '\\'))
      (.seq (plusRE fileCls) (.seq (chrRE '.') w15RE)))
    text.toList

/-- Model of `` /`[^`]+`|```/ ``. -/
def hasCodeReferences (text : String) : Bool :=
  reTest
    (.alt (.seq (chrRE btick) (.seq (plusRE (.cls (fun c => c != btick))) (chrRE btick)))
      (litRE "```".toList))
    text.toList

/-- Model of `/https?:\/\/\S+/`. -/
def hasUrls (text : String) : Bool :=
  reTest
    (.seq (litRE "http".toList)
      (.seq (optRE (chrRE 's'))
        (.seq (litRE "://".toList) (plusRE (.cls (fun c => !c.isWhitespace))))))
    text.toList

/-- Model of `/actúa como|eres un|compórtate como|act as|you are a|pretend|imagine you/i`. -/
def hasRolePrompting (text : String) : Bool :=
  containsAnyCI
    ["actúa como".toList, "eres un".toList, "compórtate como".toList, "act as".toList,
     "you are a".toList, "pretend".toList, "imagine you".toList] text.toList

/-- The literal `don't use` (built character-by-character to keep the
apostrophe out of string literals). -/
def dontUseLit : List Char := ['d', 'o', 'n', '\'', 't', ' ', 'u', 's', 'e']

/-- Model of `/no uses|sin usar|evita|no modifiques|must not|don't use|avoid|without using/i`. -/
def hasConstraints (text : String) : Bool :=
  containsAnyCI
    ["no uses".toList, "sin usar".toList, "evita".toList, "no modifiques".toList,
     "must not".toList, dontUseLit, "avoid".toList, "without using".toList] text.toList

/-- Model of `/paso a paso|step by step|primero.*luego|first.*then/i`
(the dot does not cross line terminators). -/
def hasStepByStep (text : String) : Bool :=
  let lt := lowerL text.toList
  containsSub "paso a paso".toList lt || containsSub "step by step".toList lt ||
  reTest (.seq (litRE "primero".toList) (.seq (.star dotRE) (litRE "luego".toList))) lt ||
  reTest (.seq (litRE "first".toList) (.seq (.star dotRE) (litRE "then".toList))) lt

/-- Model of `/formato:|devuelve.*json|en tabla|como lista|output as|return.*as|as a table|as a list|format:/i`. -/
def hasOutputFormat (text : String) : Bool :=
  let lt := lowerL text.toList
  containsSub "formato:".toList lt ||
  reTest (.seq (litRE "devuelve".toList) (.seq (.star dotRE) (litRE "json".toList))) lt ||
  containsSub "en tabla".toList lt || containsSub "como lista".toList lt ||
  containsSub "output as".toList lt ||
  reTest (.seq (litRE "return".toList) (.seq (.star dotRE) (litRE "as".toList))) lt ||
  containsSub "as a table".toList lt || containsSub "as a list".toList lt ||
  containsSub "format:".toList lt

/-- Model of `/^no[,.]|no quise|en realidad|cambia|en vez de|actually|I meant|instead of|change.*to/i`
(the `^` is anchored at the start of the whole string: no `m` flag). -/
def isRefinement (text : String) : Bool :=
  let lt := lowerL text.toList
  startsWithL "no,".toList lt || startsWithL "no.".toList lt ||
  containsSub "no quise".toList lt || containsSub "en realidad".toList lt ||
  containsSub "cambia".toList lt || containsSub "en vez de".toList lt ||
  containsSub "actually".toList lt || containsSub "i meant".toList lt ||
  containsSub "instead of".toList lt ||
  reTest (.seq (litRE "change".toList) (.seq (.star dotRE) (litRE "to".toList))) lt

/-- Model of `/también|y además|otra cosa|ahora|also|additionally|one more thing|now\s/i`. -/
def isFollowUp (text : String) : Bool :=
  let lt := lowerL text.toList
  containsSub "también".toList lt || containsSub "y además".toList lt ||
  containsSub "otra cosa".toList lt || containsSub "ahora".toList lt ||
  containsSub "also".toList lt || containsSub "additionally".toList lt ||
  containsSub "one more thing".toList lt ||
  reTest (.seq (litRE "now".toList) wsRE) lt

end Monitor

namespace Monitor

/-- Message role: the source only distinguishes `human` from `assistant`. -/
inductive Role where
  | human : Role
  | assistant : Role
  deriving DecidableEq, Repr

/-- One typed content block (Claude-API style): a `type` tag and, possibly,
a `text` field (`none` models a missing / non-string `text`). -/
structure ContentBlock where
  type : String
  text : Option String
  deriving DecidableEq, Repr

/-- Message content: either a single string or an ordered block list. -/
inductive Content where
  | str : String → Content
  | blocks : List ContentBlock → Content
  deriving DecidableEq, Repr

/-- One turn of a raw transcript. -/
structure SessionMessage where
  role : Role
  content : Content
  deriving DecidableEq, Repr

/-- Model of `extractText`: a string content is used verbatim; a block
list is reduced to the `text` fields of its blocks whose `type` is
`"text"` and whose `text` is a string, joined with `"\n"` (the source's
filter-then-map over blocks is written as one `filterMap`). -/
def extractText : Content → String
  | .str s => s
  | .blocks l =>
      String.intercalate "\n" (l.filterMap (fun b => if b.type == "text" then b.text else none))

/-- JS `String.prototype.trim`: drop leading and trailing whitespace. -/
def jsTrim (s : String) : String :=
  String.mk (((s.toList.dropWhile Char.isWhitespace).reverse.dropWhile Char.isWhitespace).reverse)

/-- Model of `getUserTexts` (defined identically in the prompt analyzer
and the workflow analyzer): keep human turns, extract their text, drop
turns whose trimmed text is empty. -/
def getUserTexts (messages : List SessionMessage) : List String :=
  ((messages.filter (fun m => m.role == .human)).map (fun m => extractText m.content)).filter
    (fun text => (jsTrim text).length > 0)

/-- Per-session quality-signal record (`SessionPromptingData`). -/
structure SessionPromptingData where
  promptLengths : List ℕ
  hasStructure : Bool
  hasCodeBlocks : Bool
  hasExamples : Bool
  hasFormatting : Bool
  hasFileRefs : Bool
  hasCodeRefs : Bool
  hasUrls : Bool
  hasRolePrompt : Bool
  hasConstraints : Bool
  hasStepByStep : Bool
  hasOutputFormat : Bool
  turnCount : ℕ
  hasRefinement : Bool
  hasFollowUp : Bool
  deriving DecidableEq, Repr

/-- The analysis schema version tag. -/
def ANALYSIS_VERSION : String := "1.0"

/-- The all-false / empty per-session record (`emptySessionData`). -/
def emptySessionData : SessionPromptingData :=
  { promptLengths := []
    hasStructure := false
    hasCodeBlocks := false
    hasExamples := false
    hasFormatting := false
    hasFileRefs := false
    hasCodeRefs := false
    hasUrls := false
    hasRolePrompt := false
    hasConstraints := false
    hasStepByStep := false
    hasOutputFormat := false
    turnCount := 0
    hasRefinement := false
    hasFollowUp := false }

/-- Model of `analyzeSessionPrompts`: per-session OR-reduction of the
fourteen per-turn detectors over the non-empty human turns. -/
def analyzeSessionPrompts (messages : List SessionMessage) : SessionPromptingData :=
  let userMessages := getUserTexts messages
  if userMessages.length = 0 then emptySessionData
  else
    { promptLengths := userMessages.map (fun m => m.length)
      hasStructure := userMessages.any hasStructure
      hasCodeBlocks := userMessages.any hasCodeBlocks
      hasExamples := userMessages.any hasExamples
      hasFormatting := userMessages.any hasFormatting
      hasFileRefs := userMessages.any hasFileReferences
      hasCodeRefs := userMessages.any hasCodeReferences
      hasUrls := userMessages.any hasUrls
      hasRolePrompt := userMessages.any hasRolePrompting
      hasConstraints := userMessages.any hasConstraints
      hasStepByStep := userMessages.any hasStepByStep
      hasOutputFormat := userMessages.any hasOutputFormat
      turnCount := userMessages.length
      hasRefinement := userMessages.any isRefinement
      hasFollowUp := userMessages.any isFollowUp }

/-- The four-bucket prompt length distribution. -/
structure PromptLengthDistribution where
  short : ℤ
  medium : ℤ
  long : ℤ
  detailed : ℤ
  deriving DecidableEq, Repr

/-- Aggregate prompting metrics (`PromptingMetrics` of `types.ts`). -/
structure PromptingMetrics where
  avgPromptLength : ℤ
  maxPromptLength : ℕ
  promptLengthDistribution : PromptLengthDistribution
  structuredPromptRate : ℤ
  usesCodeBlocks : Bool
  usesExamples : Bool
  usesFormatting : Bool
  contextProvisionRate : ℤ
  referencesFiles : Bool
  referencesCode : Bool
  referencesUrls : Bool
  avgTurnsBeforeResolution : ℚ
  refinementRate : ℤ
  followUpRate : ℤ
  usesRolePrompting : Bool
  usesConstraints : Bool
  usesStepByStep : Bool
  specifiesOutputFormat : Bool
  totalPromptsAnalyzed : ℕ
  analysisVersion : String
  deriving DecidableEq, Repr

/-- The all-zero / all-false prompting metrics (`emptyPromptingMetrics`). -/
def emptyPromptingMetrics : PromptingMetrics :=
  { avgPromptLength := 0
    maxPromptLength := 0
    promptLengthDistribution := { short := 0, medium := 0, long := 0, detailed := 0 }
    structuredPromptRate := 0
    usesCodeBlocks := false
    usesExamples := false
    usesFormatting := false
    contextProvisionRate := 0
    referencesFiles := false
    referencesCode := false
    referencesUrls := false
    avgTurnsBeforeResolution := 0
    refinementRate := 0
    followUpRate := 0
    usesRolePrompting := false
    usesConstraints := false
    usesStepByStep := false
    specifiesOutputFormat := false
    totalPromptsAnalyzed := 0
    analysisVersion := ANALYSIS_VERSION }

/-- Model of `aggregatePromptingMetrics`. -/
def aggregatePromptingMetrics (sessions : List SessionPromptingData) : PromptingMetrics :=
  if sessions.length = 0 then emptyPromptingMetrics
  else
    let allLengths := sessions.flatMap (fun s => s.promptLengths)
    let totalPrompts := allLengths.length
    if totalPrompts = 0 then emptyPromptingMetrics
    else
      let avgLength : ℚ := (allLengths.sum : ℚ) / (totalPrompts : ℚ)
      let maxLength := allLengths.foldr max 0
      { avgPromptLength := jsRound avgLength
        maxPromptLength := maxLength
        promptLengthDistribution :=
          { short := pct allLengths (fun l => l < 100)
            medium := pct allLengths (fun l => 100 ≤ l && l < 500)
            long := pct allLengths (fun l => 500 ≤ l && l < 2000)
            detailed := pct allLengths (fun l => 2000 ≤ l) }
        structuredPromptRate := pct sessions (fun s => s.hasStructure)
        usesCodeBlocks := sessions.any (fun s => s.hasCodeBlocks)
        usesExamples := sessions.any (fun s => s.hasExamples)
        usesFormatting := sessions.any (fun s => s.hasFormatting)
        contextProvisionRate := pct sessions (fun s => s.hasFileRefs || s.hasCodeRefs || s.hasUrls)
        referencesFiles := sessions.any (fun s => s.hasFileRefs)
        referencesCode := sessions.any (fun s => s.hasCodeRefs)
        referencesUrls := sessions.any (fun s => s.hasUrls)
        avgTurnsBeforeResolution := avgJs (sessions.map (fun s => s.turnCount))
        refinementRate := pct sessions (fun s => s.hasRefinement)
        followUpRate := pct sessions (fun s => s.hasFollowUp)
        usesRolePrompting := sessions.any (fun s => s.hasRolePrompt)
        usesConstraints := sessions.any (fun s => s.hasConstraints)
        usesStepByStep := sessions.any (fun s => s.hasStepByStep)
        specifiesOutputFormat := sessions.any (fun s => s.hasOutputFormat)
        totalPromptsAnalyzed := totalPrompts
        analysisVersion := ANALYSIS_VERSION }

end Monitor

namespace Monitor

/-- Walk of the list keeping every element not already in `seen`. -/
def jsDedupAux {α : Type} [DecidableEq α] (seen : List α) : List α → List α
  | [] => []
  | a :: as =>
      if seen.contains a then jsDedupAux seen as
      else a :: jsDedupAux (a :: seen) as

/-- First-occurrence de-duplication, modelling `[...new Set(arr)]` (a JS
`Set` keeps insertion order, so the first occurrence of each value wins). -/
def jsDedup {α : Type} [DecidableEq α] (l : List α) : List α := jsDedupAux [] l

/-- Character class `[\w:-]` of the skill-directive regex. -/
def isSkillChar (c : Char) : Bool := isWordChar c || c == ':' || c == '-'

/-- Does the list contain a `'-'` or `':'` that is followed by at least
one more character?  This is the `(?:[-:][\w:-]+)+` requirement of the
skill regex, restated over a run of `[\w:-]` characters. -/
def hasSplitSep : List Char → Bool
  | [] => false
  | [_] => false
  | c :: rest => (c == '-' || c == ':') || hasSplitSep rest

/-- Language of the capture group `[\w][\w:-]*(?:[-:][\w:-]+)+` over a run
of skill-class characters: non-empty, starts with a word character, and
some separator occurs after the head with at least one character after it. -/
def inSkillLang (x : List Char) : Bool :=
  match x with
  | [] => false
  | c :: rest => isWordChar c && hasSplitSep rest

/-- The negative lookahead `(?![/\w])` after the captured group. -/
def skillLookOk : Option Char → Bool
  | none => true
  | some c => !(isWordChar c || c == '/')

/-- Greedy match of the skill capture group against the text that follows
the leading slash: the longest prefix of the `[\w:-]` run that is in the
group's language and whose following character passes the lookahead. -/
def skillTokenAt (u : List Char) : Option (List Char) :=
  let t := u.takeWhile isSkillChar
  (List.range (t.length + 1)).reverse.findSome? (fun k =>
    let x := t.take k
    if inSkillLang x && skillLookOk u[k]? then some x else none)

/-- Match of `^\/([\w][\w:-]*(?:[-:][\w:-]+)+)(?![/\w])` at one line start. -/
def lineSkill : List Char → Option String
  | [] => none
  | c :: u =>
      if c == '/' then (skillTokenAt u).map (fun x => String.mk x) else none

/-- Model of `detectSkills`: the multiline regex is anchored with `^`, so
it is attempted at every line start; the captured identifier is the slash
token without the leading slash. -/
def detectSkills (userMessage : String) : List String :=
  (lineStartSuffixes userMessage.toList).filterMap lineSkill

end Monitor

namespace Monitor

/-- Per-session at-reference record (`AtReferenceData`). -/
structure AtReferenceData where
  count : ℕ
  uniqueFiles : List String
  hasPlanFiles : Bool
  hasConfigFiles : Bool
  explicitPathsCount : ℕ
  deriving DecidableEq, Repr

/-- Character class `[\w\/\\.-]` of the path patterns. -/
def atClass (c : Char) : Bool :=
  isWordChar c || c == '/' || c == '\\' || c == '.' || c == '-'

/-- Greedy match of `@[\w\/\\.-]+\.\w{1,5}\b` given the characters `r`
after an `'@'`.  The class run is consumed greedily and backtracks to the
right-most `'.'` whose following word run is a valid 1–5 character
extension ending at a word boundary; the result is the full matched token. -/
def atTokenAt (r : List Char) : Option (List Char) :=
  let t := r.takeWhile atClass
  (List.range t.length).reverse.findSome? (fun a =>
    if 1 ≤ a && t[a]? == some '.' then
      let w := (t.drop (a + 1)).takeWhile isWordChar
      if 1 ≤ w.length && w.length ≤ 5 then some ('@' :: t.take (a + 1 + w.length))
      else none
    else none)

/-- Fuelled scan of `/@[\w\/\\.-]+\.\w{1,5}\b/g`: leftmost matches, with
scanning resuming after each matched token.  Every step consumes at least
one character, so a fuel equal to the text length never runs out. -/
def atScanFuel : ℕ → List Char → List (List Char)
  | 0, _ => []
  | _ + 1, [] => []
  | fuel + 1, c :: r =>
      if c == '@' then
        match atTokenAt r with
        | some tok => tok :: atScanFuel fuel (r.drop (tok.length - 1))
        | none => atScanFuel fuel r
      else atScanFuel fuel r

/-- Global scan of `/@[\w\/\\.-]+\.\w{1,5}\b/g` over the whole text. -/
def atScan (s : List Char) : List (List Char) := atScanFuel s.length s

end Monitor

namespace Monitor

/-- Case-insensitive prefix test: `p` is given lower-case and compared
against the lower-cased text. -/
def startsWithCI : List Char → List Char → Bool
  | [], _ => true
  | _ :: _, [] => false
  | p :: ps, t :: ts => p == lowerChar t && startsWithCI ps ts

/-- Greedy match of the capture group `([\w\/\\.-]+\.\w{1,5})` (no
trailing `\b` here): backtrack the class run to the right-most `'.'`
followed by at least one word character; the extension takes at most five
word characters.  Returns the captured path and the number of characters
consumed. -/
def pathCapture (v : List Char) : Option (List Char × ℕ) :=
  let t := v.takeWhile atClass
  (List.range t.length).reverse.findSome? (fun a =>
    if 1 ≤ a && t[a]? == some '.' then
      let w := (t.drop (a + 1)).takeWhile isWordChar
      if 1 ≤ w.length then
        some (t.take (a + 1 + min 5 w.length), a + 1 + min 5 w.length)
      else none
    else none)

/-- The optional quote `[`"']?` before the path, tried greedily with
fallback to the quote-less branch. -/
def quoteThenPath (v : List Char) : Option (List Char × ℕ) :=
  match v with
  | c :: rest =>
      if c == btick || c == '"' || c == '\'' then
        match pathCapture rest with
        | some (p, n) => some (p, n + 1)
        | none => pathCapture v
      else pathCapture v
  | [] => pathCapture v

/-- An optional literal keyword followed by `\s+` (such as `(?:el\s+)?` or
`(?:archivo\s+)?`), tried greedily with fallback to skipping it; `k` is
the continuation for the rest of the pattern. -/
def optKeywordSp (lit : List Char) (k : List Char → Option (List Char × ℕ))
    (v : List Char) : Option (List Char × ℕ) :=
  if startsWithCI lit v then
    let v1 := v.drop lit.length
    let ws := v1.takeWhile Char.isWhitespace
    if 1 ≤ ws.length then
      match k (v1.drop ws.length) with
      | some (p, n) => some (p, lit.length + ws.length + n)
      | none => k v
    else k v
  else k v

/-- The leading keyword alternation of the explicit-path regex, in source
order. -/
def expKeywords : List (List Char) :=
  ["en".toList, "lee".toList, "mira".toList, "sigue".toList, "ver".toList,
   "read".toList, "see".toList, "follow".toList, "check".toList]

/-- Attempt of the whole explicit-path pattern
`(?:en|lee|mira|sigue|ver|read|see|follow|check)\s+(?:el\s+)?(?:archivo\s+)?[`"']?([\w\/\\.-]+\.\w{1,5})`
at the current position (case-insensitive): alternatives are tried in
source order; returns the captured path and the full match length. -/
def expAttempt (s : List Char) : Option (List Char × ℕ) :=
  expKeywords.findSome? (fun kw =>
    if startsWithCI kw s then
      let s1 := s.drop kw.length
      let ws := s1.takeWhile Char.isWhitespace
      if 1 ≤ ws.length then
        match optKeywordSp "el".toList (optKeywordSp "archivo".toList quoteThenPath)
            (s1.drop ws.length) with
        | some (p, n) => some (p, kw.length + ws.length + n)
        | none => none
      else none
    else none)

/-- Fuelled scan of the explicit-path regex (`g` flag): leftmost matches,
resuming after each full match (at least one character past the match
start).  Every step consumes at least one character, so a fuel equal to
the text length never runs out. -/
def expScanFuel : ℕ → List Char → List (List Char)
  | 0, _ => []
  | _ + 1, [] => []
  | fuel + 1, c :: r =>
      match expAttempt (c :: r) with
      | some (p, n) => p :: expScanFuel fuel ((c :: r).drop (max 1 n))
      | none => expScanFuel fuel r

/-- Global scan of the explicit-path regex over the whole text. -/
def expScan (s : List Char) : List (List Char) := expScanFuel s.length s

/-- Model of `/plan\/|progreso\/|progress\/|PLAN\.md|step-\d+|README\.md/i`. -/
def planFileTest (r : String) : Bool :=
  let lt := lowerL r.toList
  containsSub "plan/".toList lt || containsSub "progreso/".toList lt ||
  containsSub "progress/".toList lt || containsSub "plan.md".toList lt ||
  reTest (.seq (litRE "step-".toList) (plusRE (.cls Char.isDigit))) lt ||
  containsSub "readme.md".toList lt

/-- Model of `/\.env|config\.|tsconfig|package\.json|schema\.prisma/i`. -/
def configFileTest (r : String) : Bool :=
  containsAnyCI
    [".env".toList, "config.".toList, "tsconfig".toList, "package.json".toList,
     "schema.prisma".toList] r.toList

/-- Model of `detectAtReferences`: `@`-tokens and explicit-path captures
are unioned and de-duplicated; the per-turn `count` is the size of that
de-duplicated union. -/
def detectAtReferences (userMessage : String) : AtReferenceData :=
  let atRefs := (atScan userMessage.toList).map (fun l => String.mk l)
  let explicitPaths := (expScan userMessage.toList).map (fun l => String.mk l)
  let allRefs := jsDedup (atRefs ++ explicitPaths)
  { count := allRefs.length
    uniqueFiles := jsDedup allRefs
    hasPlanFiles := allRefs.any planFileTest
    hasConfigFiles := allRefs.any configFileTest
    explicitPathsCount := explicitPaths.length }

end Monitor

namespace Monitor

/-- The ordered `actionDetection` table: each category paired with the
model of its bilingual detection regex (all alternatives are literals). -/
def actionDetection : List (String × (String → Bool)) :=
  [("plan", fun t => containsAnyCI
      ["/writing-plans".toList, "/brainstorm".toList, "planifica".toList, "diseña".toList,
       "plan:".toList, "approach".toList, "design".toList] t.toList),
   ("implement", fun t => containsAnyCI
      ["/executing".toList, "implementa".toList, "crea".toList, "añade".toList,
       "modifica".toList, "create".toList, "add".toList, "build".toList,
       "implement".toList] t.toList),
   ("verify", fun t => containsAnyCI
      ["/verification".toList, "verifica".toList, "comprueba".toList, "test".toList,
       "check".toList, "asegúrate".toList, "make sure".toList] t.toList),
   ("review", fun t => containsAnyCI
      ["/requesting-code-review".toList, "/code-review".toList, "revisa".toList,
       "review".toList, "examina".toList, "examine".toList] t.toList),
   ("test", fun t => containsAnyCI
      ["/test-driven".toList, "test".toList, "spec".toList, "vitest".toList,
       "jest".toList, "pytest".toList] t.toList),
   ("debug", fun t => containsAnyCI
      ["/systematic-debugging".toList, "debug".toList, "error".toList, "fix".toList,
       "bug".toList, "arregla".toList, "soluciona".toList] t.toList),
   ("explore", fun t => containsAnyCI
      ["explica".toList, "cómo funciona".toList, "qué es".toList, "qué hace".toList,
       "explain".toList, "what is".toList, "how does".toList, "how to".toList] t.toList)]

/-- Model of `detectActions`: every category whose regex matches, in
table order. -/
def detectActions (userMessage : String) : List String :=
  actionDetection.filterMap (fun p => if p.2 userMessage then some p.1 else none)

/-- Model of `detectFlowPattern`: fixed-priority decision list over the
de-duplicated action set. -/
def detectFlowPattern (actions : List String) : String :=
  let unique := jsDedup actions
  if ["plan", "implement", "verify", "review"].all (fun a => unique.contains a) then "full-cycle"
  else if ["plan", "implement", "verify"].all (fun a => unique.contains a) then "plan-and-verify"
  else if ["test", "implement", "verify"].all (fun a => unique.contains a) then "tdd-flow"
  else if ["implement", "review"].all (fun a => unique.contains a) then "implement-and-review"
  else if unique.contains "implement" then "implement-only"
  else if unique.contains "explore" then "explore-only"
  else "unknown"

end Monitor

namespace Monitor

/-- Ordered multi-step search: each step is an alternation of literal
words, and the steps must occur left to right with the next step starting
at or after the end of the previous one.  This models `A.*B.*C` patterns
under the `s` flag (dot crosses lines), for match existence. -/
def stepSearch (alts : List (List Char)) (k : List Char → Bool) : List Char → Bool
  | [] => alts.any (fun a => startsWithL a [] && k [])
  | t :: ts =>
      alts.any (fun a => startsWithL a (t :: ts) && k ((t :: ts).drop a.length)) ||
      stepSearch alts k ts

/-- Chained `stepSearch` over a list of steps. -/
def seqSearch : List (List (List Char)) → List Char → Bool
  | [], _ => true
  | alts :: rest, t => stepSearch alts (seqSearch rest) t

/-- Per-session meta-cognition record (`MetaCognitionData`). -/
structure MetaCognitionData where
  definesProcess : Bool
  setsConstraints : Bool
  requestsVerification : Bool
  definesAcceptance : Bool
  deriving DecidableEq, Repr

/-- The literal `don't commit` (built character-by-character). -/
def dontCommitLit : List Char := ['d', 'o', 'n', '\'', 't', ' ', 'c', 'o', 'm', 'm', 'i', 't']

/-- Model of `detectMetaInstructions`: the four signals are tested on the
space-joined concatenation of all the session's human turns.
`definesProcess` models
`/primero.*(?:luego|después).*(?:finalmente|por último)|first.*then.*finally|paso 1.*paso 2|step 1.*step 2/is`,
the others are case-insensitive literal alternations
(`requestsVerification` also has the `double.?check` alternative). -/
def detectMetaInstructions (messages : List String) : MetaCognitionData :=
  let allText := String.intercalate " " messages
  let lt := lowerL allText.toList
  { definesProcess :=
      seqSearch ["primero".toList :: [], ["luego".toList, "después".toList],
        ["finalmente".toList, "por último".toList]] lt ||
      seqSearch [["first".toList], ["then".toList], ["finally".toList]] lt ||
      seqSearch [["paso 1".toList], ["paso 2".toList]] lt ||
      seqSearch [["step 1".toList], ["step 2".toList]] lt
    setsConstraints :=
      containsAnyCI
        ["no hagas commit".toList, "no modifiques otros".toList, "solo lee".toList,
         "no pushes".toList, dontCommitLit, "read only".toList, "just research".toList,
         "no toques".toList] allText.toList
    requestsVerification :=
      containsSub "verifica el".toList lt || containsSub "verifica que".toList lt ||
      containsSub "verifica antes".toList lt ||
      containsSub "comprueba el".toList lt || containsSub "comprueba que".toList lt ||
      containsSub "asegúrate de".toList lt || containsSub "confirm that".toList lt ||
      containsSub "make sure".toList lt ||
      reTest (.seq (litRE "double".toList) (.seq (optRE dotRE) (litRE "check".toList))) lt
    definesAcceptance :=
      containsAnyCI
        ["considéralo listo cuando".toList, "terminado cuando".toList, "done when".toList,
         "acceptance criteria".toList, "el checklist".toList, "cumple con".toList]
        allText.toList }

/-- Per-session workflow-signal record (`SessionWorkflowData`). -/
structure SessionWorkflowData where
  skills : List String
  atReferences : AtReferenceData
  actions : List String
  flowPattern : String
  metaCognition : MetaCognitionData
  deriving DecidableEq, Repr

/-- Maximum number of sessions used by the workflow aggregation. -/
def MAX_SESSIONS_TO_ANALYZE : ℕ := 50

/-- Model of `analyzeSessionWorkflow`.  The source's per-turn loop
accumulates independent fields (a skill `Set`, the at-reference record and
the action list); each accumulator is written here as its own list
operation over the user turns. -/
def analyzeSessionWorkflow (messages : List SessionMessage)
    (skillsFromToolCalls : List String := []) : SessionWorkflowData :=
  let userTexts := getUserTexts messages
  if userTexts.length = 0 then
    { skills := skillsFromToolCalls
      atReferences :=
        { count := 0, uniqueFiles := [], hasPlanFiles := false, hasConfigFiles := false,
          explicitPathsCount := 0 }
      actions := []
      flowPattern := "unknown"
      metaCognition :=
        { definesProcess := false, setsConstraints := false, requestsVerification := false,
          definesAcceptance := false } }
  else
    let allSkills := jsDedup (userTexts.flatMap detectSkills ++ skillsFromToolCalls)
    let atRefsAgg : AtReferenceData :=
      { count := (userTexts.map (fun t => (detectAtReferences t).count)).sum
        uniqueFiles := jsDedup (userTexts.flatMap (fun t => (detectAtReferences t).uniqueFiles))
        hasPlanFiles := userTexts.any (fun t => (detectAtReferences t).hasPlanFiles)
        hasConfigFiles := userTexts.any (fun t => (detectAtReferences t).hasConfigFiles)
        explicitPathsCount :=
          (userTexts.map (fun t => (detectAtReferences t).explicitPathsCount)).sum }
    let allActions := userTexts.flatMap detectActions
    { skills := allSkills
      atReferences := atRefsAgg
      actions := jsDedup allActions
      flowPattern := detectFlowPattern allActions
      metaCognition := detectMetaInstructions userTexts }

/-- Aggregate workflow metrics (`WorkflowMetrics` of `types.ts`). -/
structure WorkflowMetrics where
  skillsUsed : List String
  skillUsageCount : ℕ
  uniqueSkillsCount : ℕ
  skillsPerSession : ℚ
  atReferencesCount : ℕ
  atReferencesPerSession : ℚ
  uniqueFilesReferenced : ℕ
  usesPlanFiles : Bool
  usesConfigFiles : Bool
  pathsInPrompts : ℕ
  sessionsWithPlan : ℕ
  sessionsWithVerification : ℕ
  sessionsWithReview : ℕ
  fullFlowSessions : ℕ
  avgActionsPerSession : ℚ
  definesProcess : Bool
  setsConstraints : Bool
  requestsVerification : Bool
  definesAcceptanceCriteria : Bool
  directiveRate : ℚ
  totalSessionsAnalyzed : ℕ
  analysisVersion : String
  deriving DecidableEq, Repr

/-- The all-zero workflow metrics returned for an empty window. -/
def emptyWorkflowMetrics : WorkflowMetrics :=
  { skillsUsed := []
    skillUsageCount := 0
    uniqueSkillsCount := 0
    skillsPerSession := 0
    atReferencesCount := 0
    atReferencesPerSession := 0
    uniqueFilesReferenced := 0
    usesPlanFiles := false
    usesConfigFiles := false
    pathsInPrompts := 0
    sessionsWithPlan := 0
    sessionsWithVerification := 0
    sessionsWithReview := 0
    fullFlowSessions := 0
    avgActionsPerSession := 0
    definesProcess := false
    setsConstraints := false
    requestsVerification := false
    definesAcceptanceCriteria := false
    directiveRate := 0
    totalSessionsAnalyzed := 0
    analysisVersion := ANALYSIS_VERSION }

/-- The windowing step of `aggregateWorkflowMetrics`, modelling
`sessions.length > MAX_SESSIONS_TO_ANALYZE ? sessions.slice(-MAX_SESSIONS_TO_ANALYZE) : sessions`. -/
def workflowWindow (sessions : List SessionWorkflowData) : List SessionWorkflowData :=
  if sessions.length > MAX_SESSIONS_TO_ANALYZE then
    sessions.drop (sessions.length - MAX_SESSIONS_TO_ANALYZE)
  else sessions

/-- Body of `aggregateWorkflowMetrics` applied to the already-windowed
session list `limited`.  The source's single loop over `limited`
accumulates independent counters and flags; each accumulator is written
as its own list operation over `limited`. -/
def workflowCore (limited : List SessionWorkflowData) : WorkflowMetrics :=
  let total := limited.length
  if total = 0 then emptyWorkflowMetrics
  else
    let allSkills := limited.flatMap (fun s => s.skills)
    let atRefsTotal := (limited.map (fun s => s.atReferences.count)).sum
    let uniqueFilesList := jsDedup (limited.flatMap (fun s => s.atReferences.uniqueFiles))
    let pathsInPromptsTotal := (limited.map (fun s => s.atReferences.explicitPathsCount)).sum
    let actionsTotal := (limited.map (fun s => s.actions.length)).sum
    let directiveSessions :=
      (limited.filter (fun s =>
        s.skills.length > 0 || s.metaCognition.definesProcess ||
        s.metaCognition.setsConstraints)).length
    let uniqueSkills := jsDedup allSkills
    let skillUsageCount := allSkills.length
    { skillsUsed := uniqueSkills
      skillUsageCount := skillUsageCount
      uniqueSkillsCount := uniqueSkills.length
      skillsPerSession := (jsRound ((skillUsageCount : ℚ) / (total : ℚ) * 10) : ℚ) / 10
      atReferencesCount := atRefsTotal
      atReferencesPerSession := (jsRound ((atRefsTotal : ℚ) / (total : ℚ) * 10) : ℚ) / 10
      uniqueFilesReferenced := uniqueFilesList.length
      usesPlanFiles := limited.any (fun s => s.atReferences.hasPlanFiles)
      usesConfigFiles := limited.any (fun s => s.atReferences.hasConfigFiles)
      pathsInPrompts := pathsInPromptsTotal
      sessionsWithPlan := (limited.filter (fun s => s.actions.contains "plan")).length
      sessionsWithVerification := (limited.filter (fun s => s.actions.contains "verify")).length
      sessionsWithReview := (limited.filter (fun s => s.actions.contains "review")).length
      fullFlowSessions := (limited.filter (fun s => s.flowPattern == "full-cycle")).length
      avgActionsPerSession := (jsRound ((actionsTotal : ℚ) / (total : ℚ) * 10) : ℚ) / 10
      definesProcess := limited.any (fun s => s.metaCognition.definesProcess)
      setsConstraints := limited.any (fun s => s.metaCognition.setsConstraints)
      requestsVerification := limited.any (fun s => s.metaCognition.requestsVerification)
      definesAcceptanceCriteria := limited.any (fun s => s.metaCognition.definesAcceptance)
      directiveRate := (jsRound ((directiveSessions : ℚ) / (total : ℚ) * 100) : ℚ) / 100
      totalSessionsAnalyzed := total
      analysisVersion := ANALYSIS_VERSION }

/-- Model of `aggregateWorkflowMetrics`: window to the last
`MAX_SESSIONS_TO_ANALYZE` sessions, then aggregate the window. -/
def aggregateWorkflowMetrics (sessions : List SessionWorkflowData) : WorkflowMetrics :=
  workflowCore (workflowWindow sessions)

end Monitor

namespace Monitor

/-- JS `\b`: there is a word boundary between two adjacent positions iff
exactly one of the two surrounding characters (text edges count as
non-word) is a word character. -/
def isBoundaryChars (a b : Option Char) : Bool :=
  (match a with | none => false | some c => isWordChar c) !=
  (match b with | none => false | some c => isWordChar c)

/-- Remove a literal head, or fail. -/
def stripPref : List Char → List Char → Option (List Char)
  | [], t => some t
  | _ :: _, [] => none
  | p :: ps, t :: ts => if p == t then stripPref ps ts else none

/-- Does `\bkw\b` match exactly at the head of `text`, where `prev` is the
character just before the current position? -/
def matchKwAt (prev : Option Char) (kw text : List Char) : Bool :=
  match kw with
  | [] => false
  | k :: ks =>
      isBoundaryChars prev (some k) &&
      (match stripPref (k :: ks) text with
       | none => false
       | some rest => isBoundaryChars (some (ks.getLastD k)) rest.head?)

/-- Scan for `\bkw\b` anywhere in the text. -/
def scanKwWB (kw : List Char) : Option Char → List Char → Bool
  | _, [] => false
  | prev, t :: ts => matchKwAt prev kw (t :: ts) || scanKwWB kw (some t) ts

/-- Model of `/\b(w1|w2|...)\b/.test(text)` where every `wi` is a literal. -/
def testKeywords (kws : List String) (text : String) : Bool :=
  kws.any (fun w => scanKwWB w.toList none text.toList)

/-- The closed task-type enumeration (`TaskType` of `types.ts`). -/
inductive TaskType where
  | planning : TaskType
  | implementation : TaskType
  | debugging : TaskType
  | refactoring : TaskType
  | testing : TaskType
  | review : TaskType
  | documentation : TaskType
  | other : TaskType
  deriving DecidableEq, Repr

/-- Keyword set of the planning test of `inferTaskType`. -/
def planningKeywords : List String :=
  ["plan", "architect", "design", "structure", "scaffold", "outline", "strategy"]

/-- Keyword set of the debugging test. -/
def debuggingKeywords : List String :=
  ["fix", "bug", "error", "debug", "issue", "crash", "broken", "fail", "exception"]

/-- Keyword set of the refactoring test. -/
def refactoringKeywords : List String :=
  ["refactor", "clean", "improve", "simplify", "optimize", "reorganize", "restructure"]

/-- Keyword set of the testing test. -/
def testingKeywords : List String :=
  ["test", "spec", "coverage", "jest", "vitest", "mocha", "pytest", "unittest", "e2e",
   "integration"]

/-- Keyword set of the review test. -/
def reviewKeywords : List String :=
  ["review", "check", "verify", "audit", "examine", "inspect", "analyze"]

/-- Keyword set of the documentation test. -/
def documentationKeywords : List String :=
  ["doc", "readme", "comment", "explain", "document", "jsdoc", "tsdoc", "api doc"]

/-- Keyword set of the implementation test. -/
def implementationKeywords : List String :=
  ["implement", "create", "build", "add", "feature", "develop", "write", "make", "new"]

/-- Model of `inferTaskType`: lower-case the concatenation
`summary + " " + firstPrompt` and run the seven word-bounded keyword
tests in source order, first match wins; `other` if none match. -/
def inferTaskType (summary firstPrompt : String) : TaskType :=
  let text := String.mk (lowerL (summary ++ " " ++ firstPrompt).toList)
  if testKeywords planningKeywords text then .planning
  else if testKeywords debuggingKeywords text then .debugging
  else if testKeywords refactoringKeywords text then .refactoring
  else if testKeywords testingKeywords text then .testing
  else if testKeywords reviewKeywords text then .review
  else if testKeywords documentationKeywords text then .documentation
  else if testKeywords implementationKeywords text then .implementation
  else .other

/-- Modelled from the spec's words (for the refinement claim about
`inferTaskType`): a fixed, ordered list of seven keyword-set tests. -/
def taskTypeRules : List (List String × TaskType) :=
  [(planningKeywords, .planning),
   (debuggingKeywords, .debugging),
   (refactoringKeywords, .refactoring),
   (testingKeywords, .testing),
   (reviewKeywords, .review),
   (documentationKeywords, .documentation),
   (implementationKeywords, .implementation)]

/-- Modelled from the spec's words: evaluate an ordered rule list
top-to-bottom with first-match-wins semantics, `other` when no test
matches. -/
def firstMatchTaskType : List (List String × TaskType) → String → TaskType
  | [], _ => .other
  | (kws, t) :: rest, text =>
      if testKeywords kws text then t else firstMatchTaskType rest text

/-- The spec's description of `inferTaskType` as a decision list. -/
def inferTaskTypeSpec (summary firstPrompt : String) : TaskType :=
  firstMatchTaskType taskTypeRules (String.mk (lowerL (summary ++ " " ++ firstPrompt).toList))

end Monitor

namespace Monitor

theorem mem_jsDedupAux {α : Type} [DecidableEq α] (a : α) :
    ∀ (l seen : List α), a ∈ jsDedupAux seen l ↔ a ∈ l ∧ a ∉ seen := by
  intro l
  induction l with
  | nil => intro seen; simp [jsDedupAux]
  | cons x xs ih =>
      intro seen
      rw [jsDedupAux]
      by_cases hx : seen.contains x = true
      · have hxseen : x ∈ seen := List.elem_iff.mp hx
        rw [if_pos hx, ih seen]
        by_cases hax : a = x
        · subst hax; simp [hxseen]
        · simp [hax]
      · have hxseen : x ∉ seen := fun h => hx (List.elem_iff.mpr h)
        rw [if_neg hx]
        by_cases hax : a = x
        · subst hax; simp [hxseen]
        · simp [hax, ih (x :: seen)]

theorem mem_jsDedup {α : Type} [DecidableEq α] (a : α) (l : List α) :
    a ∈ jsDedup l ↔ a ∈ l := by
  rw [jsDedup, mem_jsDedupAux]
  simp

theorem nodup_jsDedupAux {α : Type} [DecidableEq α] :
    ∀ (l seen : List α), (jsDedupAux seen l).Nodup := by
  intro l
  induction l with
  | nil => intro seen; simp [jsDedupAux]
  | cons x xs ih =>
      intro seen
      rw [jsDedupAux]
      by_cases hx : seen.contains x = true
      · rw [if_pos hx]; exact ih seen
      · rw [if_neg hx]
        refine List.nodup_cons.mpr ⟨?_, ih (x :: seen)⟩
        intro hmem
        rcases (mem_jsDedupAux x xs (x :: seen)).mp hmem with ⟨_, hns⟩
        exact hns (List.mem_cons_self x seen)

theorem nodup_jsDedup {α : Type} [DecidableEq α] (l : List α) :
    (jsDedup l).Nodup :=
  nodup_jsDedupAux l []

theorem jsDedupAux_eq_self {α : Type} [DecidableEq α] :
    ∀ (l seen : List α), l.Nodup → (∀ a ∈ l, a ∉ seen) → jsDedupAux seen l = l := by
  intro l
  induction l with
  | nil => intro seen _ _; simp [jsDedupAux]
  | cons x xs ih =>
      intro seen hnd hdisj
      rcases List.nodup_cons.mp hnd with ⟨hxxs, hxs⟩
      have hxseen : x ∉ seen := hdisj x (List.mem_cons_self x xs)
      have hc : ¬(seen.contains x = true) := fun h => hxseen (List.elem_iff.mp h)
      rw [jsDedupAux, if_neg hc]
      congr 1
      refine ih (x :: seen) hxs ?_
      intro a ha
      intro hmem
      rcases List.mem_cons.mp hmem with h | h
      · exact hxxs (h ▸ ha)
      · exact hdisj a (List.mem_cons_of_mem x ha) h

theorem jsDedup_eq_self {α : Type} [DecidableEq α] {l : List α} (h : l.Nodup) :
    jsDedup l = l :=
  jsDedupAux_eq_self l [] h (by simp)

theorem jsDedup_idem {α : Type} [DecidableEq α] (l : List α) :
    jsDedup (jsDedup l) = jsDedup l :=
  jsDedup_eq_self (nodup_jsDedup l)

theorem contains_jsDedup {α : Type} [DecidableEq α] (l : List α) (a : α) :
    ((jsDedup l).contains a = true) ↔ a ∈ l := by
  rw [List.elem_iff]
  exact mem_jsDedup a l

end Monitor

namespace Monitor

/-- C1: `inferTaskType` evaluates a fixed, ordered list of keyword tests
top-to-bottom with first-match-wins semantics in the exact order
planning, debugging, refactoring, testing, review, documentation,
implementation, returning `other` when no test matches (this is the
refinement against the ordered decision list `inferTaskTypeSpec` built
from the spec's words); in particular
`inferTaskType "fix the bug in the test" "" = debugging`. -/
theorem inferTaskType_first_match_order :
    (∀ summary firstPrompt : String,
      inferTaskType summary firstPrompt = inferTaskTypeSpec summary firstPrompt) ∧
    inferTaskType "fix the bug in the test" "" = TaskType.debugging :=
  ⟨fun _ _ => rfl, by decide⟩

/-- C2: `detectFlowPattern` classifies any list of action-category strings
by the first matching rule of the fixed priority list full-cycle,
plan-and-verify, tdd-flow, implement-and-review, implement-only,
explore-only, unknown, where each rule only asks which categories are
present in the input list; the empty list yields `unknown`. -/
theorem detectFlowPattern_priority_rules :
    (∀ actions : List String,
      detectFlowPattern actions =
        if "plan" ∈ actions ∧ "implement" ∈ actions ∧ "verify" ∈ actions ∧ "review" ∈ actions
        then "full-cycle"
        else if "plan" ∈ actions ∧ "implement" ∈ actions ∧ "verify" ∈ actions then
          "plan-and-verify"
        else if "test" ∈ actions ∧ "implement" ∈ actions ∧ "verify" ∈ actions then "tdd-flow"
        else if "implement" ∈ actions ∧ "review" ∈ actions then "implement-and-review"
        else if "implement" ∈ actions then "implement-only"
        else if "explore" ∈ actions then "explore-only"
        else "unknown") ∧
    detectFlowPattern [] = "unknown" := by
  constructor
  · intro actions
    simp only [detectFlowPattern, List.all_cons, List.all_nil, Bool.and_eq_true,
      List.elem_iff, mem_jsDedup, and_true]
  · decide

end Monitor

namespace Monitor

theorem hasSplitSep_spec :
    ∀ l : List Char, hasSplitSep l = true →
      ∃ i : ℕ, i + 1 < l.length ∧ (l[i]? = some '-' ∨ l[i]? = some ':')
  | [] => by simp [hasSplitSep]
  | [c] => by simp [hasSplitSep]
  | c :: d :: rest => by
      intro h
      simp only [hasSplitSep, Bool.or_eq_true] at h
      rcases h with h1 | h2
      · refine ⟨0, by simp, ?_⟩
        rcases h1 with hc | hc
        · left; simp [beq_iff_eq.mp hc]
        · right; simp [beq_iff_eq.mp hc]
      · obtain ⟨i, hi, hv⟩ := hasSplitSep_spec (d :: rest) h2
        refine ⟨i + 1, ?_, ?_⟩
        · simpa using Nat.succ_lt_succ hi
        · simpa using hv

/-- C4: `detectSkills` recognizes a line-start slash token as a skill only
if the token contains an internal hyphen or colon (an index that is
neither the first nor the last position holds `'-'` or `':'`), and the
matched identifier has the leading slash stripped:
`detectSkills "/executing-plans implementa algo" = ["executing-plans"]`
while `detectSkills "usa /var/log" = []`. -/
theorem detectSkills_internal_separator :
    (∀ (msg sk : String), sk ∈ detectSkills msg →
      ∃ i : ℕ, 1 ≤ i ∧ i + 1 < sk.toList.length ∧
        (sk.toList[i]? = some '-' ∨ sk.toList[i]? = some ':')) ∧
    detectSkills "/executing-plans implementa algo" = ["executing-plans"] ∧
    detectSkills "usa /var/log" = [] := by
  refine ⟨?_, by decide, by decide⟩
  intro msg sk hmem
  rcases List.mem_filterMap.mp hmem with ⟨line, _, hsome⟩
  cases line with
  | nil => simp [lineSkill] at hsome
  | cons c u =>
      rw [lineSkill] at hsome
      by_cases hc : c == '/'
      · rw [if_pos hc] at hsome
        rcases Option.map_eq_some'.mp hsome with ⟨x, hx, hsk⟩
        rcases List.exists_of_findSome?_eq_some hx with ⟨k, _, hk⟩
        by_cases hcond : inSkillLang ((u.takeWhile isSkillChar).take k) &&
            skillLookOk u[k]?
        · rw [if_pos hcond] at hk
          have hxeq : (u.takeWhile isSkillChar).take k = x := Option.some.inj hk
          have hlang : inSkillLang x = true := by
            simp only [Bool.and_eq_true] at hcond
            rw [← hxeq]
            exact hcond.1
          cases x with
          | nil => simp [inSkillLang] at hlang
          | cons c0 rest =>
              simp only [inSkillLang, Bool.and_eq_true] at hlang
              obtain ⟨i, hi, hv⟩ := hasSplitSep_spec rest hlang.2
              subst hsk
              refine ⟨i + 1, Nat.le_add_left 1 i, ?_, ?_⟩
              · simpa using Nat.succ_lt_succ hi
              · simpa using hv
        · rw [if_neg hcond] at hk
          exact absurd hk (by simp)
      · rw [if_neg hc] at hsome
        exact absurd hsome (by simp)

/-- Witness for C4: the soundness direction applied at the concrete
message `"/a-b"` and detected skill `"a-b"`. -/
theorem detectSkills_internal_separator_witness :
    "a-b" ∈ detectSkills "/a-b" ∧
    ∃ i : ℕ, 1 ≤ i ∧ i + 1 < ("a-b" : String).toList.length ∧
      (("a-b" : String).toList[i]? = some '-' ∨ ("a-b" : String).toList[i]? = some ':') :=
  ⟨by decide, detectSkills_internal_separator.1 "/a-b" "a-b" (by decide)⟩

/-- C10: for every single input string, the record returned by
`detectAtReferences` satisfies `count = uniqueFiles.length` (both come
from the same de-duplicated union), so repeated mentions of one file in a
single turn count once; only the cross-turn aggregation of
`analyzeSessionWorkflow` can make `count` exceed the number of unique
files, as the concrete two-turn session shows (`count = 2` over `1`
unique file). -/
theorem detectAtReferences_count_eq_unique :
    (∀ s : String, (detectAtReferences s).count = (detectAtReferences s).uniqueFiles.length) ∧
    (analyzeSessionWorkflow
      [⟨.human, .str "mira @src/app.ts"⟩, ⟨.human, .str "mira @src/app.ts"⟩]
      []).atReferences.count = 2 ∧
    (analyzeSessionWorkflow
      [⟨.human, .str "mira @src/app.ts"⟩, ⟨.human, .str "mira @src/app.ts"⟩]
      []).atReferences.uniqueFiles.length = 1 := by
  refine ⟨?_, by decide, by decide⟩
  intro s
  simp only [detectAtReferences]
  rw [jsDedup_idem]

end Monitor

namespace Monitor

/-- Session record with the given prompt lengths, every flag false, and
the matching turn count; used to instantiate aggregate claims. -/
def sessionLen (ls : List ℕ) : SessionPromptingData :=
  { emptySessionData with promptLengths := ls, turnCount := ls.length }

/-- C6: `aggregatePromptingMetrics` on an empty session list, or on a
list whose sessions contribute zero prompt lengths, returns the
all-zero / all-false structure with `totalPromptsAnalyzed = 0` and
`analysisVersion` set, rather than raising an error. -/
theorem aggregatePromptingMetrics_empty_pool :
    aggregatePromptingMetrics [] = emptyPromptingMetrics ∧
    (∀ sessions : List SessionPromptingData,
      sessions.flatMap (fun s => s.promptLengths) = [] →
      aggregatePromptingMetrics sessions = emptyPromptingMetrics) ∧
    (aggregatePromptingMetrics []).totalPromptsAnalyzed = 0 ∧
    (aggregatePromptingMetrics []).analysisVersion = "1.0" := by
  refine ⟨rfl, ?_, rfl, rfl⟩
  intro sessions h
  by_cases hs : sessions.length = 0
  · simp [aggregatePromptingMetrics, hs]
  · simp [aggregatePromptingMetrics, hs, h]

/-- Witness for C6: a one-session list contributing zero prompt lengths. -/
theorem aggregatePromptingMetrics_empty_pool_witness :
    ([emptySessionData].flatMap (fun s => s.promptLengths) = []) ∧
    aggregatePromptingMetrics [emptySessionData] = emptyPromptingMetrics :=
  ⟨by decide, aggregatePromptingMetrics_empty_pool.2.1 [emptySessionData] (by decide)⟩

/-- C7: the length distribution buckets the flattened pool into four
disjoint, covering ranges (short `< 100`, medium `[100, 500)`, long
`[500, 2000)`, detailed `≥ 2000`), each reported as the percentage of the
pool in that range rounded independently to the nearest integer; for two
sessions with lengths `2` and `2500` the split is `50` / `50`, and the
four percentages need not sum to `100` (a pool `[1, 150, 600]` sums to
`99`). -/
theorem promptLengthDistribution_buckets :
    (∀ l : ℕ,
      ((if l < 100 then 1 else 0) + (if 100 ≤ l ∧ l < 500 then 1 else 0) +
        (if 500 ≤ l ∧ l < 2000 then 1 else 0) + (if 2000 ≤ l then 1 else 0) : ℕ) = 1) ∧
    (∀ sessions : List SessionPromptingData,
      sessions.flatMap (fun s => s.promptLengths) ≠ [] →
      (aggregatePromptingMetrics sessions).promptLengthDistribution =
        { short := jsRound (((sessions.flatMap (fun s => s.promptLengths)).countP
              (fun l => decide (l < 100)) : ℚ) /
              ((sessions.flatMap (fun s => s.promptLengths)).length : ℚ) * 100)
          medium := jsRound (((sessions.flatMap (fun s => s.promptLengths)).countP
              (fun l => decide (100 ≤ l ∧ l < 500)) : ℚ) /
              ((sessions.flatMap (fun s => s.promptLengths)).length : ℚ) * 100)
          long := jsRound (((sessions.flatMap (fun s => s.promptLengths)).countP
              (fun l => decide (500 ≤ l ∧ l < 2000)) : ℚ) /
              ((sessions.flatMap (fun s => s.promptLengths)).length : ℚ) * 100)
          detailed := jsRound (((sessions.flatMap (fun s => s.promptLengths)).countP
              (fun l => decide (2000 ≤ l)) : ℚ) /
              ((sessions.flatMap (fun s => s.promptLengths)).length : ℚ) * 100) }) ∧
    (aggregatePromptingMetrics
      [sessionLen [2], sessionLen [2500]]).promptLengthDistribution =
      { short := 50, medium := 0, long := 0, detailed := 50 } ∧
    (let d := (aggregatePromptingMetrics [sessionLen [1, 150, 600]]).promptLengthDistribution
     d.short + d.medium + d.long + d.detailed = 99) := by
  refine ⟨?_, ?_, ?_, ?_⟩
  · intro l
    split_ifs <;> omega
  · intro sessions h
    have hs : ¬sessions.length = 0 := by
      intro h0
      rw [List.length_eq_zero] at h0
      subst h0
      simp at h
    have htot : ¬((sessions.flatMap fun s => s.promptLengths).length = 0) := by
      intro h0
      rw [List.length_eq_zero] at h0
      exact h h0
    simp only [aggregatePromptingMetrics, if_neg hs, if_neg htot, pct,
      List.countP_eq_length_filter, Bool.decide_and, PromptLengthDistribution.mk.injEq]
  · simp only [aggregatePromptingMetrics, sessionLen, emptySessionData, pct, jsRound]
    norm_num
  · simp only [aggregatePromptingMetrics, sessionLen, emptySessionData, pct, jsRound]
    norm_num

/-- Witness for C7: the general bucket formula applied at the concrete
two-session pool with lengths `2` and `2500`. -/
theorem promptLengthDistribution_buckets_witness :
    (([sessionLen [2], sessionLen [2500]].flatMap (fun s => s.promptLengths)) ≠ []) ∧
    (aggregatePromptingMetrics [sessionLen [2], sessionLen [2500]]).promptLengthDistribution =
      { short := jsRound ((([sessionLen [2], sessionLen [2500]].flatMap
            (fun s => s.promptLengths)).countP (fun l => decide (l < 100)) : ℚ) /
            (([sessionLen [2], sessionLen [2500]].flatMap
              (fun s => s.promptLengths)).length : ℚ) * 100)
        medium := jsRound ((([sessionLen [2], sessionLen [2500]].flatMap
            (fun s => s.promptLengths)).countP (fun l => decide (100 ≤ l ∧ l < 500)) : ℚ) /
            (([sessionLen [2], sessionLen [2500]].flatMap
              (fun s => s.promptLengths)).length : ℚ) * 100)
        long := jsRound ((([sessionLen [2], sessionLen [2500]].flatMap
            (fun s => s.promptLengths)).countP (fun l => decide (500 ≤ l ∧ l < 2000)) : ℚ) /
            (([sessionLen [2], sessionLen [2500]].flatMap
              (fun s => s.promptLengths)).length : ℚ) * 100)
        detailed := jsRound ((([sessionLen [2], sessionLen [2500]].flatMap
            (fun s => s.promptLengths)).countP (fun l => decide (2000 ≤ l)) : ℚ) /
            (([sessionLen [2], sessionLen [2500]].flatMap
              (fun s => s.promptLengths)).length : ℚ) * 100) } :=
  ⟨by decide,
    promptLengthDistribution_buckets.2.1 [sessionLen [2], sessionLen [2500]] (by decide)⟩

end Monitor

namespace Monitor

/-- C5: in the record produced by `analyzeSessionPrompts`, every one of
the fourteen boolean flags is the OR, over all non-empty human turns, of
that flag's per-turn test; `promptLengths` holds one per-turn character
length and `turnCount` is the number of non-empty human turns; with zero
human turns the result is the all-false / empty / zero record. -/
theorem analyzeSessionPrompts_or_reduction :
    ∀ messages : List SessionMessage,
      (getUserTexts messages = [] → analyzeSessionPrompts messages = emptySessionData) ∧
      (analyzeSessionPrompts messages).promptLengths =
        (getUserTexts messages).map (fun t => t.length) ∧
      (analyzeSessionPrompts messages).turnCount = (getUserTexts messages).length ∧
      (analyzeSessionPrompts messages).hasStructure = (getUserTexts messages).any hasStructure ∧
      (analyzeSessionPrompts messages).hasCodeBlocks =
        (getUserTexts messages).any hasCodeBlocks ∧
      (analyzeSessionPrompts messages).hasExamples = (getUserTexts messages).any hasExamples ∧
      (analyzeSessionPrompts messages).hasFormatting =
        (getUserTexts messages).any hasFormatting ∧
      (analyzeSessionPrompts messages).hasFileRefs =
        (getUserTexts messages).any hasFileReferences ∧
      (analyzeSessionPrompts messages).hasCodeRefs =
        (getUserTexts messages).any hasCodeReferences ∧
      (analyzeSessionPrompts messages).hasUrls = (getUserTexts messages).any hasUrls ∧
      (analyzeSessionPrompts messages).hasRolePrompt =
        (getUserTexts messages).any hasRolePrompting ∧
      (analyzeSessionPrompts messages).hasConstraints =
        (getUserTexts messages).any hasConstraints ∧
      (analyzeSessionPrompts messages).hasStepByStep =
        (getUserTexts messages).any hasStepByStep ∧
      (analyzeSessionPrompts messages).hasOutputFormat =
        (getUserTexts messages).any hasOutputFormat ∧
      (analyzeSessionPrompts messages).hasRefinement =
        (getUserTexts messages).any isRefinement ∧
      (analyzeSessionPrompts messages).hasFollowUp = (getUserTexts messages).any isFollowUp := by
  intro messages
  by_cases h : getUserTexts messages = []
  · have hl : (getUserTexts messages).length = 0 := by rw [h]; rfl
    simp [analyzeSessionPrompts, hl, h, emptySessionData]
  · have hl : ¬(getUserTexts messages).length = 0 := by
      intro h0
      exact h (List.length_eq_zero.mp h0)
    simp [analyzeSessionPrompts, hl, h]

/-- Witness for C5: a session whose only message is from the assistant
has zero human turns and yields the empty record. -/
theorem analyzeSessionPrompts_or_reduction_witness :
    getUserTexts [⟨.assistant, .str "hola"⟩] = [] ∧
    analyzeSessionPrompts [⟨.assistant, .str "hola"⟩] = emptySessionData :=
  ⟨by decide, (analyzeSessionPrompts_or_reduction [⟨.assistant, .str "hola"⟩]).1 (by decide)⟩

/-- C9: the normalization step keeps the ordered non-empty human-authored
texts: assistant messages are dropped, string content is used verbatim, a
block list is reduced to the `text` fields of its `"text"`-typed blocks
joined with a line break (other block shapes are skipped, not errors),
and a turn whose text trims to empty is filtered out, preserving order. -/
theorem getUserTexts_normalization :
    getUserTexts [] = [] ∧
    (∀ (m : SessionMessage) (msgs : List SessionMessage), m.role = .assistant →
      getUserTexts (m :: msgs) = getUserTexts msgs) ∧
    (∀ (m : SessionMessage) (msgs : List SessionMessage), m.role = .human →
      getUserTexts (m :: msgs) =
        if (jsTrim (extractText m.content)).length = 0 then getUserTexts msgs
        else extractText m.content :: getUserTexts msgs) ∧
    (∀ s : String, extractText (.str s) = s) ∧
    (∀ bl : List ContentBlock,
      extractText (.blocks bl) =
        String.intercalate "\n"
          ((bl.filter (fun b => b.type == "text" && b.text.isSome)).map
            (fun b => b.text.getD ""))) := by
  refine ⟨rfl, ?_, ?_, fun s => rfl, ?_⟩
  · intro m msgs h
    simp [getUserTexts, h]
  · intro m msgs h
    by_cases hc : (jsTrim (extractText m.content)).length = 0
    · simp [getUserTexts, h, hc, List.filter_cons]
    · simp [getUserTexts, h, hc, List.filter_cons, Nat.pos_iff_ne_zero]
  · intro bl
    show String.intercalate "\n" _ = _
    congr 1
    induction bl with
    | nil => rfl
    | cons b bs ih =>
        simp only [beq_iff_eq] at ih
        by_cases hbt : b.type = "text"
        · cases htx : b.text with
          | none => simp [List.filterMap_cons, List.filter_cons, hbt, htx, ih]
          | some s => simp [List.filterMap_cons, List.filter_cons, hbt, htx, ih]
        · simp [List.filterMap_cons, List.filter_cons, hbt, ih]

/-- Witness for C9: the assistant-drop and human-keep equations applied
at concrete messages. -/
theorem getUserTexts_normalization_witness :
    ((⟨.assistant, .str "x"⟩ : SessionMessage).role = .assistant ∧
      getUserTexts [⟨.assistant, .str "x"⟩, ⟨.human, .str "hola"⟩] =
        getUserTexts [⟨.human, .str "hola"⟩]) ∧
    ((⟨.human, .str "hola"⟩ : SessionMessage).role = .human ∧
      getUserTexts [(⟨.human, .str "hola"⟩ : SessionMessage)] =
        if (jsTrim (extractText (⟨.human, .str "hola"⟩ : SessionMessage).content)).length = 0
        then getUserTexts []
        else extractText (⟨.human, .str "hola"⟩ : SessionMessage).content :: getUserTexts []) :=
  ⟨⟨rfl, getUserTexts_normalization.2.1 ⟨.assistant, .str "x"⟩ [⟨.human, .str "hola"⟩] rfl⟩,
   ⟨rfl, getUserTexts_normalization.2.2.1 ⟨.human, .str "hola"⟩ [] rfl⟩⟩

end Monitor

namespace Monitor

theorem workflowCore_totalSessions (l : List SessionWorkflowData) :
    (workflowCore l).totalSessionsAnalyzed = l.length := by
  by_cases h : l.length = 0
  · simp [workflowCore, h, emptyWorkflowMetrics]
  · simp [workflowCore, h]

theorem workflowCore_skillsUsed (l : List SessionWorkflowData) :
    (workflowCore l).skillsUsed = jsDedup (l.flatMap (fun s => s.skills)) := by
  by_cases h : l.length = 0
  · have hnil : l = [] := List.length_eq_zero.mp h
    subst hnil
    simp [workflowCore, emptyWorkflowMetrics, jsDedup, jsDedupAux]
  · simp [workflowCore, h]

theorem workflowCore_skillUsageCount (l : List SessionWorkflowData) :
    (workflowCore l).skillUsageCount = (l.flatMap (fun s => s.skills)).length := by
  by_cases h : l.length = 0
  · have hnil : l = [] := List.length_eq_zero.mp h
    subst hnil
    simp [workflowCore, emptyWorkflowMetrics]
  · simp [workflowCore, h]

theorem workflowCore_uniqueSkillsCount (l : List SessionWorkflowData) :
    (workflowCore l).uniqueSkillsCount = (jsDedup (l.flatMap (fun s => s.skills))).length := by
  by_cases h : l.length = 0
  · have hnil : l = [] := List.length_eq_zero.mp h
    subst hnil
    simp [workflowCore, emptyWorkflowMetrics, jsDedup, jsDedupAux]
  · simp [workflowCore, h]

/-- C3: for more than 50 input records, `aggregateWorkflowMetrics` uses
only the last 50 entries (aggregating the input equals aggregating its
last-50 suffix); over 60 sessions, `totalSessionsAnalyzed = 50` and
`skillsUsed` contains exactly the skills occurring in the last 50
sessions, so a skill occurring only in the first 10 never appears. -/
theorem aggregateWorkflowMetrics_last_window :
    (∀ sessions : List SessionWorkflowData, sessions.length > 50 →
      aggregateWorkflowMetrics sessions =
        aggregateWorkflowMetrics (sessions.drop (sessions.length - 50))) ∧
    (∀ sessions : List SessionWorkflowData, sessions.length = 60 →
      (aggregateWorkflowMetrics sessions).totalSessionsAnalyzed = 50 ∧
      (∀ sk : String, sk ∈ (aggregateWorkflowMetrics sessions).skillsUsed ↔
        ∃ s ∈ sessions.drop 10, sk ∈ s.skills)) := by
  have hwin : ∀ sessions : List SessionWorkflowData, sessions.length > 50 →
      workflowWindow sessions = sessions.drop (sessions.length - 50) := by
    intro sessions h
    simp [workflowWindow, MAX_SESSIONS_TO_ANALYZE, h]
  have hwin2 : ∀ sessions : List SessionWorkflowData, sessions.length > 50 →
      workflowWindow (sessions.drop (sessions.length - 50)) =
        sessions.drop (sessions.length - 50) := by
    intro sessions h
    have hlen : (sessions.drop (sessions.length - 50)).length = 50 := by
      rw [List.length_drop]
      omega
    simp [workflowWindow, MAX_SESSIONS_TO_ANALYZE, hlen]
  constructor
  · intro sessions h
    unfold aggregateWorkflowMetrics
    rw [hwin sessions h, hwin2 sessions h]
  · intro sessions h
    have h50 : sessions.length > 50 := by omega
    have hdrop : sessions.length - 50 = 10 := by omega
    constructor
    · unfold aggregateWorkflowMetrics
      rw [hwin sessions h50, workflowCore_totalSessions, List.length_drop]
      omega
    · intro sk
      unfold aggregateWorkflowMetrics
      rw [hwin sessions h50, hdrop, workflowCore_skillsUsed, mem_jsDedup]
      exact List.mem_flatMap

/-- A fixed workflow record used to instantiate the windowing claim. -/
def sampleWorkflowSession : SessionWorkflowData :=
  { skills := ["demo-skill"]
    atReferences :=
      { count := 0, uniqueFiles := [], hasPlanFiles := false, hasConfigFiles := false,
        explicitPathsCount := 0 }
    actions := []
    flowPattern := "unknown"
    metaCognition :=
      { definesProcess := false, setsConstraints := false, requestsVerification := false,
        definesAcceptance := false } }

/-- Witness for C3: both windowing statements applied at a concrete list
of 60 session records. -/
theorem aggregateWorkflowMetrics_last_window_witness :
    ((List.replicate 60 sampleWorkflowSession).length > 50 ∧
      aggregateWorkflowMetrics (List.replicate 60 sampleWorkflowSession) =
        aggregateWorkflowMetrics ((List.replicate 60 sampleWorkflowSession).drop
          ((List.replicate 60 sampleWorkflowSession).length - 50))) ∧
    ((List.replicate 60 sampleWorkflowSession).length = 60 ∧
      ((aggregateWorkflowMetrics
          (List.replicate 60 sampleWorkflowSession)).totalSessionsAnalyzed = 50 ∧
        (∀ sk : String,
          sk ∈ (aggregateWorkflowMetrics (List.replicate 60 sampleWorkflowSession)).skillsUsed ↔
          ∃ s ∈ (List.replicate 60 sampleWorkflowSession).drop 10, sk ∈ s.skills))) :=
  ⟨⟨by decide,
      aggregateWorkflowMetrics_last_window.1 (List.replicate 60 sampleWorkflowSession)
        (by decide)⟩,
   ⟨by decide,
      aggregateWorkflowMetrics_last_window.2 (List.replicate 60 sampleWorkflowSession)
        (by decide)⟩⟩

/-- One session that invokes the same skill in two different turns; the
per-session analyzer de-duplicates it to a single identifier. -/
def repeatedSkillSession : SessionWorkflowData :=
  analyzeSessionWorkflow
    [⟨.human, .str "/run-tests ahora"⟩, ⟨.human, .str "/run-tests otra vez"⟩] []

/-- C8: over the windowed sessions, `skillUsageCount` is the total number
of per-session skill entries without de-duplication, `uniqueSkillsCount`
is the size of the union of all skill identifiers, and `skillsUsed` is
exactly that union — including for records produced by
`analyzeSessionWorkflow` from a session invoking the same skill several
times (two copies of such a session give usage `2` but one unique
skill). -/
theorem aggregateWorkflowMetrics_skill_counts :
    (∀ sessions : List SessionWorkflowData,
      (aggregateWorkflowMetrics sessions).skillUsageCount =
        ((workflowWindow sessions).flatMap (fun s => s.skills)).length) ∧
    (∀ sessions : List SessionWorkflowData,
      (aggregateWorkflowMetrics sessions).uniqueSkillsCount =
        (jsDedup ((workflowWindow sessions).flatMap (fun s => s.skills))).length) ∧
    (∀ (sessions : List SessionWorkflowData) (sk : String),
      sk ∈ (aggregateWorkflowMetrics sessions).skillsUsed ↔
        ∃ s ∈ workflowWindow sessions, sk ∈ s.skills) ∧
    repeatedSkillSession.skills = ["run-tests"] ∧
    (aggregateWorkflowMetrics [repeatedSkillSession, repeatedSkillSession]).skillUsageCount = 2 ∧
    (aggregateWorkflowMetrics [repeatedSkillSession, repeatedSkillSession]).uniqueSkillsCount
      = 1 := by
  refine ⟨?_, ?_, ?_, by decide, by decide, by decide⟩
  · intro sessions
    unfold aggregateWorkflowMetrics
    exact workflowCore_skillUsageCount _
  · intro sessions
    unfold aggregateWorkflowMetrics
    exact workflowCore_uniqueSkillsCount _
  · intro sessions sk
    unfold aggregateWorkflowMetrics
    rw [workflowCore_skillsUsed, mem_jsDedup]
    exact List.mem_flatMap

end Monitor
